import Mathlib

/-!
# Verification of the SynthMed patient simulation engine

Shallow embedding of the SynthMed synthetic-patient generator
(`synthmed/config.py`, `synthmed/engine/module.py`,
`synthmed/engine/generator.py`, `synthmed/engine/engine.py`,
`synthmed/utils/demographics.py`) together with theorems settling the
specification claims about it.

Conventions of the embedding:
* Python's global `random` module is modelled as an explicit `Rng` state
  threaded through every function that draws; `random.seed(n)` is `seedRng n`,
  a pure function of `n` alone.  The concrete pseudo-random step is a linear
  congruential generator; no claim depends on the distribution of draws, only
  on how the state is seeded, threaded and consumed.
* `datetime.date` values are modelled by `CalDate` (year/month/day) with
  `CalDate.toDays` translating to a linear day number (civil-calendar
  day-count algorithm); date comparison, subtraction (`.days`) and
  `timedelta(days = k)` stepping act on day numbers.
* Python exceptions are modelled with `Except String`.
* `date.today()` is a parameter `today : CalDate` fixed for a run.
-/

namespace SynthMed

/-! ### Computable rational arithmetic

Core `Rat` arithmetic (`Rat.add`, `Rat.div`, `Rat.blt`, …) is marked
irreducible, so terms built from it do not evaluate inside the kernel and
`decide`-style witnesses would get stuck.  The embedding therefore routes
every rational operation the engine performs through the following
helpers, built from `Rat.divInt` and integer arithmetic (which do reduce);
each is proved equal to the standard `ℚ` operation, so theorem statements
can use ordinary `ℚ` notation. -/

/-- Computable `a < b` on `ℚ` by cross-multiplication (denominators are
positive by the `Rat` invariant). -/
def ratBlt (a b : ℚ) : Bool :=
  decide (a.num * (b.den : Int) < b.num * (a.den : Int))

theorem ratBlt_iff (a b : ℚ) : ratBlt a b = true ↔ a < b := by
  simp [ratBlt, Rat.lt_def]

/-- Computable addition on `ℚ`. -/
def ratAdd (a b : ℚ) : ℚ :=
  Rat.divInt (a.num * b.den + a.den * b.num) ((a.den : Int) * b.den)

theorem ratAdd_eq (a b : ℚ) : ratAdd a b = a + b :=
  (Rat.add_num_den a b).symm

/-- Computable subtraction on `ℚ`. -/
def ratSub (a b : ℚ) : ℚ :=
  Rat.divInt (a.num * b.den - a.den * b.num) ((a.den : Int) * b.den)

theorem ratSub_eq (a b : ℚ) : ratSub a b = a - b := by
  rw [sub_eq_add_neg, ← ratAdd_eq]
  unfold ratAdd ratSub
  rw [Rat.neg_num, Rat.neg_den]
  congr 1
  ring

/-- Computable division on `ℚ`. -/
def ratDiv (a b : ℚ) : ℚ :=
  Rat.divInt (a.num * b.den) ((a.den : Int) * b.num)

theorem ratDiv_eq (a b : ℚ) : ratDiv a b = a / b :=
  (Rat.div_def' a b).symm

/-- Computable absolute value on `ℚ`. -/
def ratAbs (a : ℚ) : ℚ :=
  if a.num < 0 then Rat.divInt (-a.num) (a.den : Int) else a

theorem ratAbs_eq (a : ℚ) : ratAbs a = |a| := by
  unfold ratAbs
  split
  · rw [abs_of_neg (Rat.num_neg.mp (by assumption))]
    rw [← Rat.num_divInt_den a, Rat.neg_divInt, Rat.num_divInt_den]
  · rw [abs_of_nonneg (Rat.num_nonneg.mp (by omega))]

/-- Computable list sum on `ℚ` (Python's `sum`). -/
def ratSum : List ℚ → ℚ
  | [] => 0
  | x :: xs => ratAdd x (ratSum xs)

theorem ratSum_eq (l : List ℚ) : ratSum l = l.sum := by
  induction l with
  | nil => rfl
  | cons x xs ih => rw [ratSum, ratAdd_eq, ih, List.sum_cons]

/-- Decidable equality for `Except`, needed to evaluate concrete runs of
the fallible generation functions. -/
instance {ε α : Type} [DecidableEq ε] [DecidableEq α] :
    DecidableEq (Except ε α)
  | .error e, .error f =>
    if h : e = f then .isTrue (congrArg Except.error h)
    else .isFalse (fun hc => h (by injection hc))
  | .error _, .ok _ => .isFalse (fun hc => Except.noConfusion hc)
  | .ok _, .error _ => .isFalse (fun hc => Except.noConfusion hc)
  | .ok x, .ok y =>
    if h : x = y then .isTrue (congrArg Except.ok h)
    else .isFalse (fun hc => h (by injection hc))

/-- State of the (global) pseudo-random generator of Python's `random`
module, modelled explicitly. -/
structure Rng where
  state : Nat
deriving DecidableEq

/-- `random.seed(n)`: seeding is a pure function of the seed value alone. -/
def seedRng (n : Int) : Rng :=
  ⟨(n.emod (2 ^ 64)).toNat⟩

/-- One step of the underlying generator (a 64-bit linear congruential
generator standing in for the Mersenne Twister; the claims do not depend on
the concrete stream, only on seeding and threading). -/
def nextRng (r : Rng) : Nat × Rng :=
  let s := (6364136223846793005 * r.state + 1442695040888963407) % (2 ^ 64)
  (s, ⟨s⟩)

/-- `random.random()`: one draw, uniform in `[0, 1)` (a dyadic rational
with denominator `2^53`, as in CPython). -/
def randomUnit (r : Rng) : ℚ × Rng :=
  (Rat.divInt (((nextRng r).1 % 2 ^ 53 : Nat) : Int) (2 ^ 53), (nextRng r).2)

theorem randomUnit_val (r : Rng) :
    (randomUnit r).1 =
      (((nextRng r).1 % 2 ^ 53 : Nat) : ℚ) / (2 ^ 53 : ℚ) := by
  rw [randomUnit, Rat.divInt_eq_div, Int.cast_natCast]
  norm_num

/-- Auxiliary draw of a natural number below `n` (consumes one generator
step; `randBelow 0` is never reached from `randint`). -/
def randBelow (n : Nat) (r : Rng) : Nat × Rng :=
  ((nextRng r).1 % n, (nextRng r).2)

/-- `random.randint(lo, hi)`: uniform on the inclusive range `[lo, hi]`;
raises `ValueError` ("empty range") when `lo > hi`, as Python does. -/
def randint (lo hi : Int) (r : Rng) : Except String (Int × Rng) :=
  if hi < lo then .error "ValueError: empty range for randrange()"
  else
    .ok (lo + ((randBelow (hi + 1 - lo).toNat r).1 : Int),
      (randBelow (hi + 1 - lo).toNat r).2)

/-- `random.choice(xs)`: uniform element of a list; raises on an empty
sequence, as Python does.  The drawn index is `< xs.length`, so the
`getD` default is never used on a nonempty list. -/
def choiceL {α : Type} (xs : List α) (r : Rng) : Except String (α × Rng) :=
  match xs with
  | [] => .error "IndexError: Cannot choose from an empty sequence"
  | x :: _ =>
    .ok (xs.getD (randBelow xs.length r).1 x, (randBelow xs.length r).2)

/-- Python's `str.lower`, implemented over the character list (the core
`String.toLower` is extensionally the same map but its `String.mapAux`
recursion does not reduce inside the kernel). -/
def strToLower (s : String) : String :=
  String.mk (s.data.map Char.toLower)

/-- A calendar date (`datetime.date`). -/
structure CalDate where
  year : Int
  month : Int
  day : Int
deriving DecidableEq

/-- Day number of a civil calendar date (days since 1970-01-01, standard
`days_from_civil` algorithm).  Order-compatible with `datetime.date`
comparison; differences give `timedelta.days`. -/
def CalDate.toDays (dt : CalDate) : Int :=
  let y : Int := if dt.month ≤ 2 then dt.year - 1 else dt.year
  let era : Int := Int.fdiv y 400
  let yoe : Int := y - era * 400
  let mp : Int := Int.emod (dt.month + 9) 12
  let doy : Int := Int.fdiv (153 * mp + 2) 5 + dt.day - 1
  let doe : Int := yoe * 365 + Int.fdiv yoe 4 - Int.fdiv yoe 100 + doy
  era * 146097 + doe - 719468

/-- `models/patient.py` `Gender` enum. -/
inductive Gender where
  | MALE
  | FEMALE
deriving DecidableEq

/-- `models/patient.py` `Race` enum. -/
inductive Race where
  | WHITE
  | BLACK
  | ASIAN
  | NATIVE
  | HISPANIC
  | OTHER
deriving DecidableEq

/-- `models/patient.py` `Patient`, restricted to the fields the engine
reads or writes.  `death_date` is stored as a day number (the engine only
ever assigns dates arising from the simulation clock). -/
structure Patient where
  id : String
  first_name : String
  last_name : String
  gender : Gender
  race : Race
  ethnicity : String
  birth_date : CalDate
  death_date : Option Int := none
  income : Int
  address : Option String := none
  city : Option String := none
  state : Option String := none
  zip_code : Option String := none
  conditions : List String := []
  encounters : List String := []
  medications : List String := []
  procedures : List String := []
  observations : List String := []
  is_alive : Bool := true
deriving DecidableEq

/-- A state of a module definition, as consumed by
`Generator._process_module` (a plain dict in the source; `type` is read
with `.get("type", "")`).  `transition_weights` records declared
probabilistic-transition weights; the source never reads them. -/
structure MState where
  type : String := ""
  direct_transition_probability : Option ℚ := none
  transition_weights : List ℚ := []
deriving DecidableEq

/-- A module definition dict, as consumed by the generator
(`module.get("name", "")`, `module.get("priority", 0)`, key-presence tests
for `remarks` / `probability` / `required_states` / `states`).  `Option`
encodes key presence. -/
structure Module where
  name : Option String := none
  priority : Option Int := none
  remarks : Option String := none
  probability : Option ℚ := none
  required_states : Option (List String) := none
  states : Option (List MState) := none
deriving DecidableEq

/-- `ModuleLoader.load_modules` (`engine/module.py`): warns when the path
does not exist and returns `[]`; otherwise returns `[]` as well ("For test
purposes, return an empty modules list").  No parsing, no validation, no
`LoadError` exists anywhere in the source. -/
def load_modules (pathExists : Bool) : List Module :=
  if !pathExists then [] else []

/-- Run configuration (`synthmed/config.py` `Config`), restricted to the
fields the engine core consumes; path fields and exporter toggles are
I/O-only and omitted. -/
structure Config where
  population_size : Nat := 100
  min_age : Int := 0
  max_age : Int := 100
  seed : Option Int := none
  output_format : String := "fhir"
  gender_ratio : List (String × ℚ) := [("M", mkRat 49 100), ("F", mkRat 51 100)]
  max_workers : Nat := 4
  generate_only_living_patients : Bool := false
deriving DecidableEq

/-- `Config.__post_init__`: validates the output format (raising
`ValueError` otherwise), then normalizes `gender_ratio` in place when the
values do not already sum to 1 within 0.001.  Dividing by a zero total
raises `ZeroDivisionError` in Python, modelled as an error.  Filesystem
side effects (`os.makedirs`) and the initial `random.seed` call are
side effects only and have no bearing on the produced value. -/
def Config.postInit (cfg : Config) : Except String Config :=
  if ¬ (["fhir", "json", "csv"].contains (strToLower cfg.output_format)) then
    .error ("Invalid output format: " ++ cfg.output_format ++
      ". Must be one of: fhir, json, csv")
  else
    let total := ratSum (cfg.gender_ratio.map (fun p => p.2))
    if ratBlt (mkRat 1 1000) (ratAbs (ratSub total 1)) then
      if total = 0 then .error "ZeroDivisionError: float division by zero"
      else .ok { cfg with
        gender_ratio := cfg.gender_ratio.map (fun p => (p.1, ratDiv p.2 total)) }
    else .ok cfg

/-! ## Demographics (`synthmed/utils/demographics.py`)

The `Generator` constructs `Demographics()` with no data directory, so all
sampling uses the module-level default tables; they are embedded verbatim. -/

/-- `DEFAULT_FIRST_NAMES_MALE`. -/
def firstNamesMale : List String :=
  ["James", "John", "Robert", "Michael", "William", "David", "Richard",
   "Joseph", "Thomas", "Charles", "Christopher", "Daniel", "Matthew",
   "Anthony", "Mark", "Donald", "Steven", "Paul", "Andrew", "Joshua"]

/-- `DEFAULT_FIRST_NAMES_FEMALE`. -/
def firstNamesFemale : List String :=
  ["Mary", "Patricia", "Jennifer", "Linda", "Elizabeth", "Barbara", "Susan",
   "Jessica", "Sarah", "Karen", "Nancy", "Lisa", "Margaret", "Betty",
   "Sandra", "Ashley", "Dorothy", "Kimberly", "Emily", "Donna"]

/-- `DEFAULT_LAST_NAMES`. -/
def lastNames : List String :=
  ["Smith", "Johnson", "Williams", "Brown", "Jones", "Miller", "Davis",
   "Garcia", "Rodriguez", "Wilson", "Martinez", "Anderson", "Taylor",
   "Thomas", "Hernandez", "Moore", "Martin", "Jackson", "Thompson", "White"]

/-- `DEFAULT_LOCATIONS` (state, city, zip). -/
def locationsTable : List (String × String × String) :=
  [("Massachusetts", "Boston", "02108"),
   ("New York", "New York", "10001"),
   ("California", "Los Angeles", "90001"),
   ("Texas", "Houston", "77001"),
   ("Florida", "Miami", "33101")]

/-- `DEFAULT_RACE_DISTRIBUTION`, in insertion (iteration) order. -/
def raceDistribution : List (String × ℚ) :=
  [("white", mkRat 60 100), ("black", mkRat 13 100), ("asian", mkRat 6 100),
   ("native", mkRat 2 100), ("hispanic", mkRat 18 100),
   ("other", mkRat 1 100)]

/-- `Demographics.get_ethnicity`: lookup in `ethnicity_map`. -/
def ethnicityOf : Race → String
  | .WHITE => "non-hispanic"
  | .BLACK => "non-hispanic"
  | .ASIAN => "non-hispanic"
  | .NATIVE => "non-hispanic"
  | .HISPANIC => "hispanic"
  | .OTHER => "non-hispanic"

/-- The cumulative-probability selection loop shared by
`Generator._randomly_select_gender` and `Generator._randomly_select_race`:
walk the (label, weight) pairs accumulating weights and return the first
label whose running total exceeds the draw; fall through to `default`. -/
def cumSelect (pairs : List (String × ℚ)) (rnd acc : ℚ) (default : String) :
    String :=
  match pairs with
  | [] => default
  | (label, w) :: rest =>
    if ratBlt rnd (ratAdd acc w) then label
    else cumSelect rest rnd (ratAdd acc w) default

/-- `Generator._randomly_select_gender`: one `random.random()` draw against
the configured gender ratio, defaulting to `"F"`. -/
def randomlySelectGender (ratio : List (String × ℚ)) (r : Rng) :
    String × Rng :=
  (cumSelect ratio (randomUnit r).1 0 "F", (randomUnit r).2)

/-- The name-to-enum chain inside `Generator._randomly_select_race`
(`race_name.lower()` comparisons, anything else mapping to `OTHER`). -/
def raceFromName (name : String) : Race :=
  if (strToLower name) = "white" then .WHITE
  else if (strToLower name) = "black" then .BLACK
  else if (strToLower name) = "asian" then .ASIAN
  else if (strToLower name) = "native" then .NATIVE
  else if (strToLower name) = "hispanic" then .HISPANIC
  else .OTHER

/-- `Generator._randomly_select_race`: one `random.random()` draw against
the default race distribution; the fall-through default is `Race.OTHER`,
which `raceFromName` also assigns to the empty sentinel label. -/
def randomlySelectRace (r : Rng) : Race × Rng :=
  (raceFromName (cumSelect raceDistribution (randomUnit r).1 0 ""),
    (randomUnit r).2)

/-- Zero-padded patient identifier, `f"p{patient_id:06d}"`. -/
def patientIdString (pid : Nat) : String :=
  let s := toString pid
  "p" ++ String.mk (List.replicate (6 - s.length) '0') ++ s

/-- `Generator._generate_demographics`: gender, race and ethnicity, then a
birth year drawn from the configured age bounds (a `ValueError` from
`randint` when the range is empty, i.e. when `min_age > max_age`), a birth
date within that year (months capped at 28 days, and at today for a
current-year birth), names, income, location and address. -/
def generateDemographics (cfg : Config) (today : CalDate) (pid : Nat)
    (r0 : Rng) : Except String (Patient × Rng) :=
  let gender := (randomlySelectGender cfg.gender_ratio r0).1
  let r1 := (randomlySelectGender cfg.gender_ratio r0).2
  let race := (randomlySelectRace r1).1
  let r2 := (randomlySelectRace r1).2
  let ethnicity := ethnicityOf race
  let minBirthYear := today.year - cfg.max_age
  let maxBirthYear := today.year - cfg.min_age
  match randint minBirthYear maxBirthYear r2 with
  | .error e => .error e
  | .ok br => do
    let birthYear := br.1
    let (birthMonth, birthDay, r5) ←
      if birthYear = today.year then do
        let (m, r4) ← randint 1 today.month br.2
        let maxDay := if m = today.month then today.day else 28
        let (d, r5) ← randint 1 maxDay r4
        pure (m, d, r5)
      else do
        let (m, r4) ← randint 1 12 br.2
        let (d, r5) ← randint 1 28 r4
        pure (m, d, r5)
    let birth_date : CalDate := ⟨birthYear, birthMonth, birthDay⟩
    let (firstName, r6) ←
      choiceL (if gender = "M" then firstNamesMale else firstNamesFemale) r5
    let (lastName, r7) ← choiceL lastNames r6
    let (income, r8) ← randint 0 100000 r7
    let patient : Patient :=
      { id := patientIdString pid
        first_name := firstName
        last_name := lastName
        gender := if gender = "M" then Gender.MALE else Gender.FEMALE
        race := race
        ethnicity := ethnicity
        birth_date := birth_date
        income := income }
    let (loc, r9) ← choiceL locationsTable r8
    let (houseNo, r10) ← randint 100 9999 r9
    let patient := { patient with
      state := some loc.1
      city := some loc.2.1
      zip_code := some loc.2.2
      address := some (toString houseNo ++ " Main St") }
    pure (patient, r10)

/-! ## Module evaluation (`Generator._should_run_module`,
`Generator._process_module`, `Generator._run_modules`) -/

/-- Character-list prefix test (used for the substring test below). -/
def isPrefixCharList : List Char → List Char → Bool
  | [], _ => true
  | _ :: _, [] => false
  | a :: as, b :: bs => a == b && isPrefixCharList as bs

/-- Character-list substring test. -/
def substrCharList (needle : List Char) : List Char → Bool
  | [] => needle.isEmpty
  | c :: t => isPrefixCharList needle (c :: t) || substrCharList needle t

/-- Python's `needle in hay` on strings. -/
def strIn (needle hay : String) : Bool :=
  substrCharList needle.toList hay.toList

/-- The `required_states` check at the end of
`Generator._should_run_module`: every required state must be present in
`active_conditions`; by default the module runs. -/
def shouldRunRequired (m : Module) (active : List String) (rng : Rng) :
    Bool × Rng :=
  match m.required_states with
  | some req => if req.all (fun s => active.contains s) then (true, rng)
                else (false, rng)
  | none => (true, rng)

/-- The `probability` check of `Generator._should_run_module`: when the key
is present, one `random.random()` draw; the module is skipped when the draw
exceeds the declared probability. -/
def shouldRunProb (m : Module) (active : List String) (rng : Rng) :
    Bool × Rng :=
  match m.probability with
  | some prob =>
    if ratBlt prob (randomUnit rng).1 then (false, (randomUnit rng).2)
    else shouldRunRequired m active (randomUnit rng).2
  | none => shouldRunRequired m active rng

/-- `Generator._should_run_module`: gender-restriction remark checks, then
the probability check, then the required-states check.  (Note the source
tests `"male only" in remarks.lower()`, which is also a substring of
`"female only"`.) -/
def shouldRunModule (m : Module) (p : Patient) (active : List String)
    (rng : Rng) : Bool × Rng :=
  match m.remarks with
  | some rem =>
    if strIn "female only" (strToLower rem) && !(p.gender == Gender.FEMALE) then
      (false, rng)
    else if strIn "male only" (strToLower rem) && !(p.gender == Gender.MALE) then
      (false, rng)
    else shouldRunProb m active rng
  | none => shouldRunProb m active rng

/-- The state loop of `Generator._process_module`: walk the module's
states; a state whose `type` is exactly `"Death"` draws one
`random.random()` against `direct_transition_probability` (default 0.01)
and, on success, marks the patient dead at the current simulated date and
breaks out of the loop.  Every other state kind is ignored: no draw, no
transition, no record entry. -/
def processStates : List MState → Patient → Int → Rng → Patient × Rng
  | [], p, _, rng => (p, rng)
  | st :: rest, p, cur, rng =>
    if st.type == "Death" then
      let deathProb := st.direct_transition_probability.getD (mkRat 1 100)
      if ratBlt (randomUnit rng).1 deathProb then
        ({ p with is_alive := false, death_date := some cur },
          (randomUnit rng).2)
      else processStates rest p cur (randomUnit rng).2
    else processStates rest p cur rng

/-- `Generator._process_module`: iterate the states when the `states` key
is present; otherwise do nothing. -/
def processModule (m : Module) (p : Patient) (cur : Int) (rng : Rng) :
    Patient × Rng :=
  match m.states with
  | none => (p, rng)
  | some sts => processStates sts p cur rng

/-- The inner `for module in modules` loop of one time step of
`Generator._run_modules`: gate each module through
`_should_run_module` and process it.  (The source also accumulates the
ghost set `executed_modules`, which is never read.) -/
def evalModules (mods : List Module) (cur : Int) (active : List String) :
    Patient → Rng → Patient × Rng
  | p, rng =>
    match mods with
    | [] => (p, rng)
    | m :: rest =>
      let rng1 := (shouldRunModule m p active rng).2
      if (shouldRunModule m p active rng).1 then
        let pr := processModule m p cur rng1
        evalModules rest cur active pr.1 pr.2
      else evalModules rest cur active p rng1

/-- Stable insertion used by `sortModules`: insert before the first element
whose key is not smaller, so that elements with equal keys keep their
original relative order — the behaviour of Python's stable `sorted`. -/
def insertByKey (key : Module → Int) (m : Module) :
    List Module → List Module
  | [] => [m]
  | x :: xs =>
    if key m ≤ key x then m :: x :: xs else x :: insertByKey key m xs

/-- Stable insertion sort by an integer key (the semantics of Python's
stable `sorted(modules, key=...)`). -/
def sortByKey (key : Module → Int) : List Module → List Module
  | [] => []
  | x :: xs => insertByKey key x (sortByKey key xs)

/-- `sorted(self.modules, key=lambda m: m.get("priority", 0))` at the top
of `Generator._run_modules`. -/
def sortModules (mods : List Module) : List Module :=
  sortByKey (fun m => m.priority.getD 0) mods

/-- Mutable state threaded through the simulation loop: the patient, the
generator state, and a ghost trace of the simulated dates (day numbers) at
which the module-evaluation phase of a time step ran. -/
structure SimState where
  patient : Patient
  rng : Rng
  trace : List Int
deriving DecidableEq

/-- The module-evaluation phase of one time step: run every module at date
`cur` and record `cur` in the ghost trace. -/
def simStepEval (mods : List Module) (active : List String) (cur : Int)
    (st : SimState) : SimState :=
  let pr := evalModules mods cur active st.patient st.rng
  ⟨pr.1, pr.2, st.trace ++ [cur]⟩

/-- The `while current_date <= end_date and patient.is_alive` loop of
`Generator._run_modules`: skip (but still advance by the 7-day step) any
date preceding birth, otherwise evaluate all modules, then advance.
Structural fuel replaces the source's unbounded `while`; `runModules`
supplies fuel exceeding the possible iteration count, and
`simLoop_fuel_sufficient` below shows the result is then independent of the
fuel, so the embedding computes exactly the loop's limit.  Returns the
final state together with the final value of `current_date`. -/
def simLoop (mods : List Module) (active : List String) (birthD endD : Int) :
    Nat → Int → SimState → SimState × Int
  | 0, cur, st => (st, cur)
  | fuel + 1, cur, st =>
    if cur ≤ endD ∧ st.patient.is_alive then
      if cur - birthD < 0 then
        simLoop mods active birthD endD fuel (cur + 7) st
      else
        simLoop mods active birthD endD fuel (cur + 7)
          (simStepEval mods active cur st)
    else (st, cur)

/-- The simulation phase of `Generator._run_modules`: modules sorted by
priority, `active_conditions` initialized empty (the source never inserts
into it), the clock starting at birth and bounded by today, with fuel
exceeding the possible iteration count (each iteration advances the clock
by 7 days, so at most `(endD - birthD)/7 + 1` iterations occur;
`simLoop_fuel_sufficient` shows any larger fuel gives the same result). -/
def simOf (mods : List Module) (today : CalDate) (p : Patient)
    (rng : Rng) : SimState × Int :=
  let sorted := sortModules mods
  let birthD := p.birth_date.toDays
  let endD := today.toDays
  let fuel := (endD - birthD).toNat / 7 + 1
  simLoop sorted [] birthD endD fuel birthD ⟨p, rng, []⟩

/-- `Generator._run_modules`: sort the modules by priority, simulate from
birth to today in 7-day steps, then — if the patient died without a death
date (defensively; death always records a date in this source) — assign a
date within the last step window via `random.randint(0, 7)`.  Returns the
patient, the generator state and the ghost evaluation-date trace. -/
def runModules (mods : List Module) (today : CalDate) (p : Patient)
    (rng : Rng) : Patient × Rng × List Int :=
  let st := (simOf mods today p rng).1
  let finalCur := (simOf mods today p rng).2
  if st.patient.is_alive then (st.patient, st.rng, st.trace)
  else
    match st.patient.death_date with
    | some _ => (st.patient, st.rng, st.trace)
    | none =>
      match randint 0 7 st.rng with
      | .ok (k, r') =>
        ({ st.patient with death_date := some (finalCur - k) }, r', st.trace)
      | .error _ => (st.patient, st.rng, st.trace)

/-- One attempt of `Generator.generate_patient` after the seeding step:
demographics followed by the module simulation. -/
def attemptOnce (cfg : Config) (mods : List Module) (today : CalDate)
    (pid : Nat) (rng : Rng) : Except String (Patient × Rng) :=
  match generateDemographics cfg today pid rng with
  | .error e => .error e
  | .ok (p, r1) =>
    let res := runModules mods today p r1
    .ok (res.1, res.2.1)

/-- `Generator.generate_patient`: when a global seed is configured, reseed
the generator to `seed + patient_id` (the source also mirrors this into
`numpy.random`, which is never drawn from); generate demographics and run
the modules; and in only-living mode recurse from scratch whenever the
patient died.  The source recursion is unbounded; `fuel` counts the
remaining attempts, `none` meaning the recursion has not produced a result
within `fuel` attempts. -/
def generatePatientAux :
    Nat → Config → List Module → CalDate → Nat → Rng →
    Option (Except String (Patient × Rng))
  | 0, _, _, _, _, _ => none
  | fuel + 1, cfg, mods, today, pid, rng =>
    let rng0 := match cfg.seed with
      | some s => seedRng (s + (pid : Int))
      | none => rng
    match attemptOnce cfg mods today pid rng0 with
    | .error e => some (.error e)
    | .ok (p, r') =>
      if cfg.generate_only_living_patients && !p.is_alive then
        generatePatientAux fuel cfg mods today pid r'
      else some (.ok (p, r'))

/-! ## Population orchestration (`Engine._generate_population`) -/

/-- The sequential path of `Engine._generate_population`
(`[generator.generate_patient(i) for i in range(population_size)]`): an
exception from any ordinal propagates and aborts the whole comprehension.
`gen` abstracts the per-ordinal outcome of `generate_patient`. -/
def traverseGen (gen : Nat → Except String Patient) :
    List Nat → Except String (List Patient)
  | [] => .ok []
  | i :: rest => do
    let p ← gen i
    let ps ← traverseGen gen rest
    pure (p :: ps)

/-- `Engine._generate_population`: small populations (`≤ 10`) or a single
worker run on the sequential path; otherwise ordinals are submitted to a
worker pool and collected with `as_completed`, appending successes in
completion order (`order`, a permutation of the ordinals chosen by the
scheduler) and logging-and-dropping any ordinal whose future raised. -/
def generatePopulation (cfg : Config) (gen : Nat → Except String Patient)
    (order : List Nat) : Except String (List Patient) :=
  if cfg.population_size ≤ 10 ∨ cfg.max_workers = 1 then
    traverseGen gen (List.range cfg.population_size)
  else
    .ok (order.filterMap (fun i => (gen i).toOption))

/-! ## Fixtures and proof-support definitions -/

/-- The patient marked dead at simulated day `cur` — the single mutation
`Generator._process_module` performs on a successful death draw. -/
def deadAt (cur : Int) (p : Patient) : Patient :=
  { p with is_alive := false, death_date := some cur }

/-- Two equal-priority modules whose names are in reverse alphabetical
order in the loaded list (fixture for the evaluation-order analysis). -/
def modNamedA : Module := { name := some "a", priority := some 0 }

/-- See `modNamedA`. -/
def modNamedB : Module := { name := some "b", priority := some 0 }

/-- A certain-death state: `type = "Death"` with death probability 1, so
the first evaluation draw (`random.random() < 1`) always succeeds. -/
def certainDeathState : MState :=
  { type := "Death"
    direct_transition_probability := some 1 }

/-- A module holding only `certainDeathState`. -/
def certainDeathModule : Module :=
  { name := some "certain_death"
    states := some [certainDeathState] }

/-- A probabilistic-transition state with declared weights `[2, 1, 1]`;
its `type` is not `"Death"`, which is the only state kind
`_process_module` reacts to. -/
def probTransitionState : MState :=
  { type := "Probabilistic"
    transition_weights := [2, 1, 1] }

/-- A module holding only `probTransitionState`. -/
def probTransitionModule : Module :=
  { name := some "prob_transition"
    states := some [probTransitionState] }

/-- A fixed "today" for the concrete runs: 2026-01-05. -/
def todayFx : CalDate := ⟨2026, 1, 5⟩

/-- Concrete configuration whose age bounds force birth within days of
`todayFx`, with a global seed and only-living mode enabled. -/
def cfgOnlyLiving : Config :=
  { min_age := 0
    max_age := 0
    seed := some 42
    generate_only_living_patients := true }

/-- Concrete valid configuration with a seed (for the determinism
witness). -/
def cfgSeeded : Config :=
  { min_age := 0
    max_age := 0
    seed := some 7 }

/-- Concrete configuration with `min_age > max_age` and a valid output
format. -/
def cfgBadAges : Config :=
  { min_age := 50
    max_age := 30 }

/-- Concrete configuration that is invalid in both respects at once:
unsupported output format `"xml"` and `min_age > max_age`. -/
def cfgBadBoth : Config :=
  { min_age := 50
    max_age := 30
    output_format := "xml" }

/-- Concrete configuration whose gender ratio sums to 4 (not a probability
distribution). -/
def cfgRatio : Config :=
  { gender_ratio := [("M", 3), ("F", 1)] }

/-- The value `Config.postInit` produces for `cfgRatio`: the ratios
normalized to `3/4` and `1/4`. -/
def cfgRatioNormalized : Config :=
  { gender_ratio := [("M", mkRat 3 4), ("F", mkRat 1 4)] }

/-- Concrete patient fixture born on `todayFx` (so the simulation loop of
`_run_modules` performs exactly one time step). -/
def patientFx : Patient :=
  { id := "p000000"
    first_name := "James"
    last_name := "Smith"
    gender := Gender.MALE
    race := Race.WHITE
    ethnicity := "non-hispanic"
    birth_date := todayFx
    income := 0 }

/-- Trivial population configuration: one patient, several workers — the
sequential path of `Engine._generate_population`. -/
def cfgPopSmall : Config :=
  { population_size := 2
    max_workers := 4 }

/-- Population configuration large enough for the pooled path. -/
def cfgPopLarge : Config :=
  { population_size := 11
    max_workers := 4 }

/-- A per-ordinal generation outcome in which ordinal 0 raises and every
other ordinal succeeds with `patientFx`. -/
def genFailAtZero (i : Nat) : Except String Patient :=
  if i = 0 then .error "boom" else .ok patientFx

/-! ## Theorems: module evaluation order (C5) -/

theorem insertByKey_perm (key : Module → Int) (m : Module)
    (l : List Module) : (insertByKey key m l).Perm (m :: l) := by
  induction l with
  | nil => exact List.Perm.refl _
  | cons x xs ih =>
    rw [insertByKey]
    split
    · exact List.Perm.refl _
    · exact (ih.cons x).trans (List.Perm.swap m x xs)

theorem insertByKey_sorted (key : Module → Int) (m : Module)
    (l : List Module)
    (h : l.Pairwise (fun a b => key a ≤ key b)) :
    (insertByKey key m l).Pairwise (fun a b => key a ≤ key b) := by
  induction l with
  | nil => simp [insertByKey]
  | cons x xs ih =>
    rw [List.pairwise_cons] at h
    rw [insertByKey]
    split
    · rw [List.pairwise_cons]
      refine ⟨?_, List.pairwise_cons.mpr h⟩
      intro y hy
      rcases List.mem_cons.mp hy with rfl | hy
      · assumption
      · exact le_trans (by assumption) (h.1 y hy)
    · rw [List.pairwise_cons]
      refine ⟨?_, ih h.2⟩
      intro y hy
      rcases List.mem_cons.mp ((insertByKey_perm key m xs).mem_iff.mp hy)
        with rfl | hy
      · exact le_of_not_le (by assumption)
      · exact h.1 y hy

theorem insertByKey_filter (key : Module → Int) (m : Module)
    (l : List Module) (k : Int) :
    (insertByKey key m l).filter (fun a => key a == k) =
      if key m == k then m :: l.filter (fun a => key a == k)
      else l.filter (fun a => key a == k) := by
  induction l with
  | nil => simp only [insertByKey, List.filter_cons, List.filter_nil]
  | cons x xs ih =>
    rw [insertByKey]
    split
    · by_cases hmk : (key m == k) = true <;>
        by_cases hxk : (key x == k) = true <;>
        simp_all [List.filter_cons]
    · have hxm : key x < key m := lt_of_not_le (by assumption)
      by_cases hk : key m = k
      · have hxk : (key x == k) = false := by
          simp only [beq_eq_false_iff_ne]
          omega
        simp [List.filter_cons, hxk, ih, hk]
      · have hk' : (key m == k) = false := by
          simp only [beq_eq_false_iff_ne]
          exact hk
        simp only [hk', if_false] at ih
        simp only [List.filter_cons, ih, hk', Bool.false_eq_true, if_false]

theorem sortByKey_perm (key : Module → Int) (l : List Module) :
    (sortByKey key l).Perm l := by
  induction l with
  | nil => exact List.Perm.refl _
  | cons x xs ih =>
    exact (insertByKey_perm key x (sortByKey key xs)).trans (ih.cons x)

theorem sortByKey_sorted (key : Module → Int) (l : List Module) :
    (sortByKey key l).Pairwise (fun a b => key a ≤ key b) := by
  induction l with
  | nil => simp [sortByKey]
  | cons x xs ih => exact insertByKey_sorted key x _ ih

theorem sortByKey_filter (key : Module → Int) (l : List Module) (k : Int) :
    (sortByKey key l).filter (fun a => key a == k) =
      l.filter (fun a => key a == k) := by
  induction l with
  | nil => rfl
  | cons x xs ih =>
    rw [sortByKey, insertByKey_filter, ih]
    by_cases hxk : (key x == k) = true <;> simp_all [List.filter_cons]

/-- **C5** (amended).  Within every time step, `_run_modules` evaluates the
modules in the order `sorted(modules, key=priority)`: the evaluated
sequence is a permutation of the loaded list, is ascending in
`priority.getD 0`, and — Python's `sorted` being stable — modules of equal
priority keep their relative order from the loaded list (expressed here as:
filtering any fixed priority class commutes with the sort).  Ties are *not*
broken by module name. -/
theorem module_evaluation_order (mods : List Module) :
    (sortModules mods).Perm mods ∧
    (sortModules mods).Pairwise
      (fun a b => a.priority.getD 0 ≤ b.priority.getD 0) ∧
    ∀ k : Int,
      (sortModules mods).filter (fun m => m.priority.getD 0 == k) =
        mods.filter (fun m => m.priority.getD 0 == k) :=
  ⟨sortByKey_perm _ mods, sortByKey_sorted _ mods,
    fun k => sortByKey_filter _ mods k⟩

/-- **C5** counterexample.  With two modules of equal priority whose names
are out of alphabetical order, the evaluation order keeps the original
list order `["b", "a"]` even though `"a" < "b"`: ties are broken by list
position, not by module name as the claim states. -/
theorem module_tie_order_not_by_name :
    (sortModules [modNamedB, modNamedA]).map (fun m => m.name.getD "") =
      ["b", "a"] ∧
    modNamedB.priority.getD 0 = modNamedA.priority.getD 0 ∧
    modNamedA.name.getD "" < modNamedB.name.getD "" := by
  refine ⟨by decide, by decide, ?_⟩
  rw [String.lt_iff_toList_lt]
  decide

/-! ## Theorems: the simulation loop (C6, C7) -/

theorem deadAt_deadAt (c c' : Int) (p : Patient) :
    deadAt c (deadAt c' p) = deadAt c p := rfl

theorem processStates_cases (sts : List MState) (p : Patient) (cur : Int)
    (rng : Rng) :
    (processStates sts p cur rng).1 = p ∨
      (processStates sts p cur rng).1 = deadAt cur p := by
  induction sts generalizing rng with
  | nil => exact Or.inl rfl
  | cons st rest ih =>
    rw [processStates]
    split
    · dsimp only
      split
      · exact Or.inr rfl
      · exact ih _
    · exact ih _

theorem processModule_cases (m : Module) (p : Patient) (cur : Int)
    (rng : Rng) :
    (processModule m p cur rng).1 = p ∨
      (processModule m p cur rng).1 = deadAt cur p := by
  rw [processModule]
  cases m.states with
  | none => exact Or.inl rfl
  | some sts => exact processStates_cases sts p cur rng

theorem evalModules_cases (mods : List Module) (cur : Int)
    (active : List String) (p : Patient) (rng : Rng) :
    (evalModules mods cur active p rng).1 = p ∨
      (evalModules mods cur active p rng).1 = deadAt cur p := by
  induction mods generalizing p rng with
  | nil => exact Or.inl rfl
  | cons m rest ih =>
    rw [evalModules]
    split
    · rcases processModule_cases m p cur
        (shouldRunModule m p active rng).2 with h | h <;>
        rcases ih (processModule m p cur (shouldRunModule m p active rng).2).1
          (processModule m p cur (shouldRunModule m p active rng).2).2
          with h' | h' <;> rw [h'] <;> rw [h]
      · exact Or.inl rfl
      · exact Or.inr rfl
      · exact Or.inr rfl
      · exact Or.inr (deadAt_deadAt cur cur p)
    · exact ih p _

theorem simLoop_dead (mods : List Module) (active : List String)
    (bD eD : Int) (fuel : Nat) (cur : Int) (st : SimState)
    (h : st.patient.is_alive = false) :
    simLoop mods active bD eD fuel cur st = (st, cur) := by
  cases fuel with
  | zero => rfl
  | succ n => rw [simLoop]; simp [h]

theorem simLoop_death_inv (mods : List Module) (active : List String)
    (bD eD : Int) :
    ∀ (fuel : Nat) (cur : Int) (st : SimState),
      st.patient.is_alive = true →
      (∀ d ∈ st.trace, d < cur) →
      (simLoop mods active bD eD fuel cur st).1.patient.is_alive = false →
      ∃ D, (simLoop mods active bD eD fuel cur st).1.patient.death_date
          = some D ∧
        D ∈ (simLoop mods active bD eD fuel cur st).1.trace ∧
        ∀ d ∈ (simLoop mods active bD eD fuel cur st).1.trace, d ≤ D := by
  intro fuel
  induction fuel with
  | zero =>
    intro cur st halive htr hdead
    rw [simLoop] at hdead
    exact Bool.noConfusion (halive.symm.trans hdead)
  | succ n ih =>
    intro cur st halive htr
    rw [simLoop]
    by_cases hc : cur ≤ eD ∧ st.patient.is_alive = true
    · rw [if_pos hc]
      by_cases hskip : cur - bD < 0
      · rw [if_pos hskip]
        exact ih (cur + 7) st halive
          (fun d hd => lt_trans (htr d hd) (by omega))
      · rw [if_neg hskip]
        rcases evalModules_cases mods cur active st.patient st.rng
          with hp | hp
        · refine ih (cur + 7) (simStepEval mods active cur st) ?_ ?_
          · rw [simStepEval]
            simpa [hp] using halive
          · rw [simStepEval]
            intro d hd
            rcases List.mem_append.mp hd with hd | hd
            · exact lt_trans (htr d hd) (by omega)
            · rw [List.mem_singleton.mp hd]; omega
        · have hdead1 :
              (simStepEval mods active cur st).patient.is_alive = false := by
            rw [simStepEval]; simp [hp, deadAt]
          rw [simLoop_dead mods active bD eD n (cur + 7) _ hdead1]
          intro _
          refine ⟨cur, ?_, ?_, ?_⟩
          · rw [simStepEval]; simp [hp, deadAt]
          · rw [simStepEval]; simp
          · rw [simStepEval]
            intro d hd
            rcases List.mem_append.mp hd with hd | hd
            · exact le_of_lt (htr d hd)
            · rw [List.mem_singleton.mp hd]
    · rw [if_neg hc]
      intro hdead
      exact Bool.noConfusion (halive.symm.trans hdead)

theorem simLoop_trace_inv (mods : List Module) (active : List String)
    (bD eD : Int) :
    ∀ (fuel : Nat) (cur : Int) (st : SimState),
      (∀ d ∈ st.trace, bD ≤ d ∧ d ≤ eD) →
      ∀ d ∈ (simLoop mods active bD eD fuel cur st).1.trace,
        bD ≤ d ∧ d ≤ eD := by
  intro fuel
  induction fuel with
  | zero => intro cur st h; rw [simLoop]; exact h
  | succ n ih =>
    intro cur st h
    rw [simLoop]
    by_cases hc : cur ≤ eD ∧ st.patient.is_alive = true
    · rw [if_pos hc]
      by_cases hskip : cur - bD < 0
      · rw [if_pos hskip]
        exact ih (cur + 7) st h
      · rw [if_neg hskip]
        refine ih (cur + 7) (simStepEval mods active cur st) ?_
        rw [simStepEval]
        intro d hd
        rcases List.mem_append.mp hd with hd | hd
        · exact h d hd
        · rw [List.mem_singleton.mp hd]
          exact ⟨by omega, hc.1⟩
    · rw [if_neg hc]
      exact h

theorem simLoop_patient_cases (mods : List Module) (active : List String)
    (bD eD : Int) :
    ∀ (fuel : Nat) (cur : Int) (st : SimState),
      (simLoop mods active bD eD fuel cur st).1.patient = st.patient ∨
        ∃ c, (simLoop mods active bD eD fuel cur st).1.patient
          = deadAt c st.patient := by
  intro fuel
  induction fuel with
  | zero => intro cur st; exact Or.inl rfl
  | succ n ih =>
    intro cur st
    rw [simLoop]
    by_cases hc : cur ≤ eD ∧ st.patient.is_alive = true
    · rw [if_pos hc]
      by_cases hskip : cur - bD < 0
      · rw [if_pos hskip]
        exact ih (cur + 7) st
      · rw [if_neg hskip]
        rcases ih (cur + 7) (simStepEval mods active cur st) with h | ⟨c, h⟩
          <;> rw [h, simStepEval]
          <;> rcases evalModules_cases mods cur active st.patient st.rng
            with hp | hp
        · exact Or.inl hp
        · exact Or.inr ⟨cur, hp⟩
        · exact Or.inr ⟨c, by rw [hp]⟩
        · exact Or.inr ⟨c, by rw [hp, deadAt_deadAt]⟩
    · rw [if_neg hc]
      exact Or.inl rfl

theorem deadAt_records (c : Int) (p : Patient) :
    (deadAt c p).conditions = p.conditions ∧
    (deadAt c p).encounters = p.encounters ∧
    (deadAt c p).medications = p.medications ∧
    (deadAt c p).procedures = p.procedures ∧
    (deadAt c p).observations = p.observations :=
  ⟨rfl, rfl, rfl, rfl, rfl⟩

theorem simOf_patient_cases (mods : List Module) (today : CalDate)
    (p : Patient) (rng : Rng) :
    (simOf mods today p rng).1.patient = p ∨
      ∃ c, (simOf mods today p rng).1.patient = deadAt c p := by
  rw [simOf]
  exact simLoop_patient_cases (sortModules mods) []
    p.birth_date.toDays today.toDays
    ((today.toDays - p.birth_date.toDays).toNat / 7 + 1)
    p.birth_date.toDays ⟨p, rng, []⟩

theorem runModules_records (mods : List Module) (today : CalDate)
    (p : Patient) (rng : Rng) :
    (runModules mods today p rng).1.conditions = p.conditions ∧
    (runModules mods today p rng).1.encounters = p.encounters ∧
    (runModules mods today p rng).1.medications = p.medications ∧
    (runModules mods today p rng).1.procedures = p.procedures ∧
    (runModules mods today p rng).1.observations = p.observations := by
  rw [runModules]
  rcases simOf_patient_cases mods today p rng with h | ⟨c, h⟩ <;>
    dsimp only <;> rw [h] <;>
    [skip; rw [deadAt]] <;>
    split <;>
    first
      | exact ⟨rfl, rfl, rfl, rfl, rfl⟩
      | (split <;> exact ⟨rfl, rfl, rfl, rfl, rfl⟩)

theorem simLoop_fuel_sufficient (mods : List Module) (active : List String)
    (bD eD : Int) :
    ∀ (fuel₁ fuel₂ : Nat) (cur : Int) (st : SimState),
      eD < cur + 7 * (fuel₁ : Int) → eD < cur + 7 * (fuel₂ : Int) →
      simLoop mods active bD eD fuel₁ cur st
        = simLoop mods active bD eD fuel₂ cur st := by
  intro fuel₁
  induction fuel₁ with
  | zero =>
    intro fuel₂ cur st h1 h2
    cases fuel₂ with
    | zero => rfl
    | succ m =>
      rw [simLoop, simLoop]
      rw [if_neg (fun hc => absurd hc.1 (by omega))]
  | succ n ih =>
    intro fuel₂ cur st h1 h2
    cases fuel₂ with
    | zero =>
      rw [simLoop, simLoop]
      rw [if_neg (fun hc => absurd hc.1 (by omega))]
    | succ m =>
      rw [simLoop, simLoop]
      by_cases hc : cur ≤ eD ∧ st.patient.is_alive = true
      · rw [if_pos hc, if_pos hc]
        by_cases hskip : cur - bD < 0
        · rw [if_pos hskip, if_pos hskip]
          exact ih m (cur + 7) st (by push_cast at h1 ⊢; omega)
            (by push_cast at h2 ⊢; omega)
        · rw [if_neg hskip, if_neg hskip]
          exact ih m (cur + 7) _ (by push_cast at h1 ⊢; omega)
            (by push_cast at h2 ⊢; omega)
      · rw [if_neg hc, if_neg hc]

/-- The fuel `simOf` supplies exceeds the loop's iteration count, so the
embedded loop computes the limit of the source's unbounded `while`: any
other sufficient fuel gives the same result. -/
theorem simOf_eq_any_fuel (mods : List Module) (today : CalDate)
    (p : Patient) (rng : Rng) (fuel : Nat)
    (h : today.toDays < p.birth_date.toDays + 7 * (fuel : Int)) :
    simOf mods today p rng =
      simLoop (sortModules mods) [] p.birth_date.toDays today.toDays fuel
        p.birth_date.toDays ⟨p, rng, []⟩ := by
  rw [simOf]
  exact simLoop_fuel_sufficient (sortModules mods) []
    p.birth_date.toDays today.toDays _ fuel p.birth_date.toDays ⟨p, rng, []⟩
    (by push_cast; omega) h

theorem simOf_death_inv (mods : List Module) (today : CalDate)
    (p : Patient) (rng : Rng) (halive : p.is_alive = true)
    (hdead : (simOf mods today p rng).1.patient.is_alive = false) :
    ∃ D, (simOf mods today p rng).1.patient.death_date = some D ∧
      D ∈ (simOf mods today p rng).1.trace ∧
      ∀ d ∈ (simOf mods today p rng).1.trace, d ≤ D := by
  rw [simOf] at hdead ⊢
  exact simLoop_death_inv (sortModules mods) []
    p.birth_date.toDays today.toDays _ p.birth_date.toDays ⟨p, rng, []⟩
    halive (by simp) hdead

theorem simOf_trace_inv (mods : List Module) (today : CalDate)
    (p : Patient) (rng : Rng) :
    ∀ d ∈ (simOf mods today p rng).1.trace,
      p.birth_date.toDays ≤ d ∧ d ≤ today.toDays := by
  rw [simOf]
  exact simLoop_trace_inv (sortModules mods) []
    p.birth_date.toDays today.toDays _ p.birth_date.toDays ⟨p, rng, []⟩
    (by simp)

theorem runModules_trace (mods : List Module) (today : CalDate)
    (p : Patient) (rng : Rng) :
    (runModules mods today p rng).2.2 = (simOf mods today p rng).1.trace := by
  rw [runModules]
  dsimp only
  split
  · rfl
  · split
    · rfl
    · split <;> rfl

/-- **C7**.  The simulation loop of `_run_modules` evaluates modules only
at simulated dates between the patient's birth date and "today" as
captured when generation began: every date in the ghost evaluation trace
lies in `[birth_date, today]`. -/
theorem timeline_bound (mods : List Module) (today : CalDate) (p : Patient)
    (rng : Rng) :
    ∀ d ∈ (runModules mods today p rng).2.2,
      p.birth_date.toDays ≤ d ∧ d ≤ today.toDays := by
  intro d hd
  rw [runModules_trace] at hd
  exact simOf_trace_inv mods today p rng d hd

/-- **C7** witness: a concrete patient born on `todayFx` is evaluated at
exactly the day number of `todayFx`, which the theorem brackets by birth
and today. -/
theorem timeline_bound_witness :
    todayFx.toDays ∈ (runModules [] todayFx patientFx (seedRng 0)).2.2 ∧
    (patientFx.birth_date.toDays ≤ todayFx.toDays ∧
      todayFx.toDays ≤ todayFx.toDays) :=
  ⟨by decide, timeline_bound [] todayFx patientFx (seedRng 0)
    todayFx.toDays (by decide)⟩

/-- **C6**.  Death finality: starting from a live patient with no death
date, if the simulation ends with the patient dead then there is a death
date `D` that (a) is final — the returned record carries exactly
`death_date = D`, (b) is the date of an evaluated time step, (c) bounds
every evaluated step — no module evaluation happens at any later step —
and (d) the clinical record lists are exactly the input ones: no record
entry is ever appended afterwards (in this source, none is appended at
all). -/
theorem death_finality (mods : List Module) (today : CalDate) (p : Patient)
    (rng : Rng) (halive : p.is_alive = true) (hnone : p.death_date = none)
    (hdead : (runModules mods today p rng).1.is_alive = false) :
    ∃ D, (runModules mods today p rng).1.death_date = some D ∧
      D ∈ (runModules mods today p rng).2.2 ∧
      (∀ d ∈ (runModules mods today p rng).2.2, d ≤ D) ∧
      (runModules mods today p rng).1.conditions = p.conditions ∧
      (runModules mods today p rng).1.encounters = p.encounters ∧
      (runModules mods today p rng).1.medications = p.medications ∧
      (runModules mods today p rng).1.procedures = p.procedures ∧
      (runModules mods today p rng).1.observations = p.observations := by
  have hrec := runModules_records mods today p rng
  have htr := runModules_trace mods today p rng
  by_cases hSalive : (simOf mods today p rng).1.patient.is_alive = true
  · exfalso
    have hres : (runModules mods today p rng).1
        = (simOf mods today p rng).1.patient := by
      rw [runModules]
      dsimp only
      rw [if_pos hSalive]
    rw [hres] at hdead
    exact Bool.noConfusion (hSalive.symm.trans hdead)
  · have hSdead : (simOf mods today p rng).1.patient.is_alive = false := by
      simpa using hSalive
    obtain ⟨D, hd1, hd2, hd3⟩ := simOf_death_inv mods today p rng halive hSdead
    have hres : runModules mods today p rng
        = ((simOf mods today p rng).1.patient,
           (simOf mods today p rng).1.rng,
           (simOf mods today p rng).1.trace) := by
      rw [runModules]
      dsimp only
      rw [if_neg hSalive, hd1]
    refine ⟨D, ?_, ?_, ?_, hrec.1, hrec.2.1, hrec.2.2.1, hrec.2.2.2.1,
      hrec.2.2.2.2⟩
    · rw [hres]
      exact hd1
    · rw [htr]
      exact hd2
    · rw [htr]
      exact hd3

/-- **C6** witness: with a certain-death module, the concrete patient dies
at the first evaluated step and the theorem's conclusions hold at that
run. -/
theorem death_finality_witness :
    patientFx.is_alive = true ∧ patientFx.death_date = none ∧
    (runModules [certainDeathModule] todayFx patientFx
      (seedRng 3)).1.is_alive = false ∧
    (∃ D, (runModules [certainDeathModule] todayFx patientFx
        (seedRng 3)).1.death_date = some D ∧
      D ∈ (runModules [certainDeathModule] todayFx patientFx
        (seedRng 3)).2.2 ∧
      (∀ d ∈ (runModules [certainDeathModule] todayFx patientFx
        (seedRng 3)).2.2, d ≤ D) ∧
      (runModules [certainDeathModule] todayFx patientFx
        (seedRng 3)).1.conditions = patientFx.conditions ∧
      (runModules [certainDeathModule] todayFx patientFx
        (seedRng 3)).1.encounters = patientFx.encounters ∧
      (runModules [certainDeathModule] todayFx patientFx
        (seedRng 3)).1.medications = patientFx.medications ∧
      (runModules [certainDeathModule] todayFx patientFx
        (seedRng 3)).1.procedures = patientFx.procedures ∧
      (runModules [certainDeathModule] todayFx patientFx
        (seedRng 3)).1.observations = patientFx.observations) :=
  ⟨rfl, rfl, by decide,
    death_finality [certainDeathModule] todayFx patientFx (seedRng 3)
      rfl rfl (by decide)⟩

/-! ## Theorems: determinism (C1) and the only-living retry (C3) -/

/-- **C1**.  When a global seed is configured, `generate_patient` begins by
reseeding the generator to `seed + patient_id`, so its result is a pure
function of `(seed, ordinal)` (together with the fixed configuration,
module catalog and "today"): the state the global generator happens to be
in when the call starts — which is the only thing that differs between a
sequential run and a worker-pool run of any size or completion order —
does not influence the produced `PatientRecord` fields.  `fuel` bounds the
only-living retry recursion identically on both sides. -/
theorem seeded_generation_rng_independent (fuel : Nat) (cfg : Config)
    (mods : List Module) (today : CalDate) (pid : Nat) (s : Int)
    (h : cfg.seed = some s) (rng₁ rng₂ : Rng) :
    generatePatientAux fuel cfg mods today pid rng₁
      = generatePatientAux fuel cfg mods today pid rng₂ := by
  cases fuel with
  | zero => rfl
  | succ n =>
    rw [generatePatientAux, generatePatientAux, h]

/-- **C1** witness: two runs of ordinal 3 from arbitrary distinct generator
states coincide. -/
theorem seeded_generation_rng_independent_witness :
    cfgSeeded.seed = some 7 ∧
    generatePatientAux 2 cfgSeeded [certainDeathModule] todayFx 3
        (seedRng 999)
      = generatePatientAux 2 cfgSeeded [certainDeathModule] todayFx 3
        (seedRng 123456) :=
  ⟨rfl, seeded_generation_rng_independent 2 cfgSeeded [certainDeathModule]
    todayFx 3 7 rfl (seedRng 999) (seedRng 123456)⟩

/-- **C3** (code bug).  In only-living mode with a global seed, the
regeneration of a dead patient never terminates: each recursive
`generate_patient` call reseeds to the same `seed + patient_id`, so the
retry reproduces the identical dead patient and recurses again — for every
finite attempt bound the recursion fails to produce a result (the Python
source would hit `RecursionError`).  The hypothesis states that the single
(deterministic) attempt for this ordinal yields a dead patient. -/
theorem only_living_retry_never_terminates (cfg : Config)
    (mods : List Module) (today : CalDate) (pid : Nat) (s : Int)
    (hs : cfg.seed = some s)
    (hliv : cfg.generate_only_living_patients = true)
    (hdead : (attemptOnce cfg mods today pid
        (seedRng (s + (pid : Int)))).toOption.map
          (fun pr => pr.1.is_alive) = some false) :
    ∀ (fuel : Nat) (rng : Rng),
      generatePatientAux fuel cfg mods today pid rng = none := by
  intro fuel
  induction fuel with
  | zero => intro rng; rfl
  | succ n ih =>
    intro rng
    rw [generatePatientAux, hs]
    cases hat : attemptOnce cfg mods today pid (seedRng (s + (pid : Int)))
      with
    | error e =>
      rw [hat] at hdead
      simp [Except.toOption] at hdead
    | ok pr =>
      obtain ⟨p, r'⟩ := pr
      rw [hat] at hdead
      simp only [Except.toOption] at hdead
      simp at hdead
      simp [hliv, hdead, ih]

/-- **C3** witness: concretely, with `seed = 42`, only-living mode and a
certain-death module, the single attempt produces a dead patient and the
generation recursion yields no result for (in particular) 5 attempts. -/
theorem only_living_retry_never_terminates_witness :
    cfgOnlyLiving.seed = some 42 ∧
    cfgOnlyLiving.generate_only_living_patients = true ∧
    (attemptOnce cfgOnlyLiving [certainDeathModule] todayFx 0
        (seedRng (42 + (0 : Nat)))).toOption.map
          (fun pr => pr.1.is_alive) = some false ∧
    generatePatientAux 5 cfgOnlyLiving [certainDeathModule] todayFx 0
      (seedRng 0) = none :=
  ⟨rfl, rfl, by decide,
    only_living_retry_never_terminates cfgOnlyLiving [certainDeathModule]
      todayFx 0 42 rfl rfl (by decide) 5 (seedRng 0)⟩

/-! ## Theorems: module loading (C4) and the state interpreter (C8) -/

/-- **C4** (code bug).  `ModuleLoader.load_modules` never validates
anything and never fails: whatever the directory holds — including
structurally invalid module definitions — it returns the empty catalog
(its return type in the embedding is not even fallible, because the source
has no `LoadError` and no raise path).  Invalid modules are therefore
silently dropped along with all valid ones, contradicting the claim. -/
theorem load_modules_always_empty (pathExists : Bool) :
    load_modules pathExists = [] := by
  cases pathExists <;> rfl

/-- **C8** (code bug).  Evaluating a module whose only state is a
probabilistic transition with declared weights `[2, 1, 1]` does nothing:
`_process_module` reacts only to states of type `"Death"`, so no uniform
draw is made (the returned generator state is the input one), no weight
normalization happens, no transition is selected, and the patient is
returned unchanged — against the claim's one-draw / cumulative-boundary
semantics. -/
theorem probabilistic_state_ignored :
    processModule probTransitionModule patientFx 20458 (seedRng 11)
        = (patientFx, seedRng 11) ∧
    probTransitionState.transition_weights = [2, 1, 1] ∧
    probTransitionState.type ≠ "Death" := by
  refine ⟨by decide, by decide, by decide⟩

/-! ## Theorems: population orchestration (C2) -/

/-- **C2** counterexample.  With population size 2 — which takes the
sequential path of `_generate_population` (`population_size <= 10`) — an
exception at ordinal 0 aborts the entire run: the result is the propagated
error, not a result set with that ordinal dropped, even though ordinal 1
would have generated successfully. -/
theorem sequential_failure_aborts_run :
    cfgPopSmall.population_size = 2 ∧
    genFailAtZero 1 = .ok patientFx ∧
    generatePopulation cfgPopSmall genFailAtZero [0, 1]
      = .error "boom" := by
  refine ⟨rfl, by decide, by decide⟩

/-- **C2** (amended).  Per-patient error isolation holds only on the
pooled path: when `population_size > 10` and `max_workers ≠ 1`, the run
returns `ok` whatever the per-ordinal outcomes — a failing ordinal is
dropped from the result set and every ordinal whose generation succeeded
appears in it (in completion order).  On the sequential path
(`population_size ≤ 10` or `max_workers = 1`) the first exception aborts
the whole run, as the counterexample shows. -/
theorem pooled_failure_isolation (cfg : Config)
    (gen : Nat → Except String Patient) (order : List Nat)
    (h1 : 10 < cfg.population_size) (h2 : cfg.max_workers ≠ 1) :
    generatePopulation cfg gen order
      = .ok (order.filterMap (fun i => (gen i).toOption)) ∧
    ∀ i ∈ order, ∀ p, gen i = .ok p →
      p ∈ order.filterMap (fun i => (gen i).toOption) := by
  constructor
  · rw [generatePopulation,
      if_neg (fun hc => hc.elim (fun h => by omega) h2)]
  · intro i hi p hp
    exact List.mem_filterMap.mpr ⟨i, hi, by rw [hp]; rfl⟩

/-- **C2** witness: a pooled run (population 11, 4 workers) with ordinal 0
failing returns `ok` with the other ten patients kept. -/
theorem pooled_failure_isolation_witness :
    10 < cfgPopLarge.population_size ∧ cfgPopLarge.max_workers ≠ 1 ∧
    (generatePopulation cfgPopLarge genFailAtZero (List.range 11)
      = .ok ((List.range 11).filterMap
          (fun i => (genFailAtZero i).toOption)) ∧
     ∀ i ∈ List.range 11, ∀ p, genFailAtZero i = .ok p →
      p ∈ (List.range 11).filterMap
        (fun i => (genFailAtZero i).toOption)) :=
  ⟨by decide, by decide,
    pooled_failure_isolation cfgPopLarge genFailAtZero (List.range 11)
      (by decide) (by decide)⟩

/-! ## Theorems: configuration validation (C9, C10) -/

/-- **C9** counterexample.  A configuration with `min_age = 50 >
max_age = 30` and a valid output format passes `Config.__post_init__`
unchanged — no configuration error is raised before generation — and the
failure instead surfaces inside per-patient demographic generation, as a
`ValueError` from `random.randint` on the empty birth-year range. -/
theorem invalid_age_bounds_pass_config_validation :
    cfgBadAges.max_age < cfgBadAges.min_age ∧
    Config.postInit cfgBadAges = .ok cfgBadAges ∧
    generateDemographics cfgBadAges todayFx 0 (seedRng 42)
      = .error "ValueError: empty range for randrange()" := by
  refine ⟨by decide, by decide, by decide⟩

/-- **C9** (amended).  Configuration-time validation covers the output
format: for *every* configuration whose output format is unsupported,
`__post_init__` raises a `ValueError` at construction, before any
generation.  The age bounds are *not* validated at configuration time:
for every configuration with `min_age > max_age`, every call of
`_generate_demographics` (hence every patient ordinal) fails with a
`ValueError` when the birth year is drawn from the empty range — during
generation, not before it.  The two implications carry independent
premises: each holds for all configurations satisfying its own one. -/
theorem config_validation_scope (cfg : Config) (today : CalDate)
    (pid : Nat) (rng : Rng) :
    ((["fhir", "json", "csv"].contains
        (strToLower cfg.output_format)) = false →
      Config.postInit cfg
        = .error ("Invalid output format: " ++ cfg.output_format ++
            ". Must be one of: fhir, json, csv")) ∧
    (cfg.max_age < cfg.min_age →
      generateDemographics cfg today pid rng
        = .error "ValueError: empty range for randrange()") := by
  constructor
  · intro hfmt
    rw [Config.postInit,
      if_pos (fun h => by rw [hfmt] at h; exact Bool.noConfusion h)]
  · intro hage
    have herr : ∀ r : Rng,
        randint (today.year - cfg.max_age) (today.year - cfg.min_age) r
          = .error "ValueError: empty range for randrange()" := by
      intro r
      rw [randint, if_pos (by omega)]
    rw [generateDemographics]
    dsimp only
    rw [herr]

/-- **C9** witness: at a configuration invalid in both respects (format
`"xml"` and `min_age = 50 > max_age = 30`), both premises hold
concretely; construction fails with the format `ValueError`, and
demographic generation fails with the empty-range `ValueError`. -/
theorem config_validation_scope_witness :
    (["fhir", "json", "csv"].contains
      (strToLower cfgBadBoth.output_format)) = false ∧
    cfgBadBoth.max_age < cfgBadBoth.min_age ∧
    Config.postInit cfgBadBoth
      = .error ("Invalid output format: " ++ cfgBadBoth.output_format ++
          ". Must be one of: fhir, json, csv") ∧
    generateDemographics cfgBadBoth todayFx 3 (seedRng 5)
      = .error "ValueError: empty range for randrange()" :=
  ⟨by decide, by decide,
    (config_validation_scope cfgBadBoth todayFx 3 (seedRng 5)).1
      (by decide),
    (config_validation_scope cfgBadBoth todayFx 3 (seedRng 5)).2
      (by decide)⟩

theorem ratSum_map_ratDiv (l : List (String × ℚ)) (t : ℚ) :
    ((l.map (fun p => (p.1, ratDiv p.2 t))).map (fun p => p.2)).sum
      = ((l.map (fun p => p.2)).sum) / t := by
  induction l with
  | nil => simp
  | cons x xs ih =>
    simp only [List.map_cons, List.sum_cons, ratDiv_eq] at ih ⊢
    rw [ih, add_div]

/-- **C10**.  Whenever `Config.__post_init__` accepts a configuration
whose `gender_ratio` values sum to a positive total, the constructed
configuration's `gender_ratio` values sum to 1 within a tolerance of
`1/1000`: either the sum already lay within the tolerance and is kept, or
it is normalized in place by dividing every ratio by the total, making the
sum exactly 1.  Gender selection therefore draws against a (tolerance-)
normalized distribution. -/
theorem gender_ratio_normalized (cfg cfg' : Config)
    (hpos : 0 < ((cfg.gender_ratio.map (fun p => p.2)).sum))
    (h : Config.postInit cfg = .ok cfg') :
    |((cfg'.gender_ratio.map (fun p => p.2)).sum) - 1| ≤ 1/1000 := by
  rw [Config.postInit] at h
  split at h
  · exact absurd h (by simp)
  · dsimp only at h
    split at h
    · split at h
      · exact absurd h (by simp)
      · have hne : ((cfg.gender_ratio.map (fun p => p.2)).sum) ≠ 0 :=
          ne_of_gt hpos
        injection h with h'
        rw [← h']
        dsimp only
        rw [ratSum_map_ratDiv, ratSum_eq, div_self hne]
        norm_num
    · rename_i hcond
      rw [ratBlt_iff, ratSub_eq, ratAbs_eq, ratSum_eq] at hcond
      have h1000 : (mkRat 1 1000 : ℚ) = 1/1000 := by
        rw [Rat.mkRat_eq_div]
        norm_num
      rw [h1000] at hcond
      injection h with h'
      rw [← h']
      exact not_lt.mp hcond

/-- **C10** witness: a gender ratio summing to 4 is accepted and
normalized to `[3/4, 1/4]`, whose sum is 1. -/
theorem gender_ratio_normalized_witness :
    0 < ((cfgRatio.gender_ratio.map (fun p => p.2)).sum) ∧
    |((cfgRatioNormalized.gender_ratio.map (fun p => p.2)).sum) - 1|
      ≤ 1/1000 :=
  ⟨by norm_num [cfgRatio],
    gender_ratio_normalized cfgRatio cfgRatioNormalized
      (by norm_num [cfgRatio]) (by decide)⟩

end SynthMed
